import Mathlib

/-!
Verification development for the adaopte backend (animal adoption platform).

The relational tables touched by the adoption workflow, the donation registry
and the authentication service are embedded as Lean structures, and each HTTP
route or service method that the claims mention is translated into a pure
state-transition function `State → args → (statusCode, State)`.  A Prisma
transaction is a single Lean function application, so the all-or-nothing
behaviour of the one multi-statement transaction (the adoption decision) is
modelled by the function either returning the fully updated state or, on an
internal failure, the unchanged input state with code 500.

HTTP status codes follow the route layer exactly: 200/201 success,
400 validation or state conflict (the routes answer 400 for the
animal-not-available, non-pending-cancel, completed-donation-delete and
invalid-status cases), 403 forbidden, 404 not found, 409 conflict
(duplicate active request, pending-requests delete guard).  The spec error
taxonomy maps its `ConflictError` to "409/400 depending on the resource",
so both 400 and 409 realise a spec-level Conflict.
-/

namespace Adaopte

/-- Models the JavaScript string method `trim()`: strip leading and trailing
whitespace.  Lean has `String.trim` but its `Substring` implementation does
not reduce inside the kernel, so the same function is implemented over the
character list. -/
def strTrim (s : String) : String :=
  ⟨((s.data.dropWhile Char.isWhitespace).reverse.dropWhile Char.isWhitespace).reverse⟩

/-- Models the JavaScript string method `toLowerCase()` used by
`AuthService.determineUserRole`. -/
def strToLower (s : String) : String :=
  ⟨s.data.map Char.toLower⟩

/-- Models the JavaScript expression `x || null` on an optional string:
`undefined`, `null` and the empty string all collapse to `null`. -/
def orNull (x : Option String) : Option String :=
  match x with
  | none => none
  | some s => if s = "" then none else some s

/-- Row of the `animal` table.  `createdAt` is omitted: it is only used for
ordering listings, which no claim mentions.  Statuses are the literal strings
of the source: `available`, `pending`, `adopted`. -/
structure Animal where
  id : Nat
  type : String
  name : String
  city : String
  age : Int
  breed : String
  description : Option String
  status : String
  deriving DecidableEq

/-- Row of the `adopt` table (adoption requests).  The `user` field is the
free-text column that `PUT /admin/adoptions/:id` overwrites with the admin
comment; statuses are `pending`, `approved`, `rejected`. -/
structure Adopt where
  id : Nat
  userid : Nat
  animalid : Nat
  firstname : String
  lastname : String
  phone : String
  status : String
  user : Option String
  deriving DecidableEq

/-- Row of the `donation` table, restricted to the fields the modelled route
(`DELETE /admin/donations/:id`) reads: id and status.  `amount` and `userid`
are carried along for completeness. -/
structure Donation where
  id : Nat
  userid : Option Nat
  amount : Int
  status : String
  deriving DecidableEq

/-- The slice of the datastore the adoption workflow touches: the `animal`
and `adopt` tables. -/
structure DB where
  animals : List Animal
  adopts : List Adopt
  deriving DecidableEq

/-- Row of the `user` table, restricted to the fields `AuthService` reads. -/
structure User where
  id : Nat
  firstname : String
  lastname : String
  email : String
  password : String
  phone : Option String
  role : Option String
  deriving DecidableEq

/-- Text stored into the `user` column of every sibling request that the
approval branch of `PUT /admin/adoptions/:id` bulk-rejects. -/
def rejectedNote : String :=
  "Rejeté automatiquement - animal adopté par un autre utilisateur"

/-- POST /adoptions (donationroute.ts, lines 508-597).  After the falsy-field
validation: 404 if the animal is absent, 400 if it is not `available`, 409 if
the user already has a `pending` or `approved` request for it, otherwise a
new `pending` request is inserted (Prisma assigns the id; here it is passed
as `newId`).  The animal row is never written. -/
def createAdoption (db : DB) (newId userId animalId : Nat)
    (firstname lastname phone : String) : Nat × DB :=
  if animalId == 0 || firstname == "" || lastname == "" || phone == "" then (400, db)
  else
    match db.animals.find? (fun an => an.id == animalId) with
    | none => (404, db)
    | some animal =>
      if animal.status ≠ "available" then (400, db)
      else
        match db.adopts.find? (fun a =>
            a.userid == userId && a.animalid == animalId &&
            (a.status == "pending" || a.status == "approved")) with
        | some _ => (409, db)
        | none =>
          (201, ⟨db.animals, db.adopts ++
            [{ id := newId, userid := userId, animalid := animalId,
               firstname := strTrim firstname, lastname := strTrim lastname,
               phone := strTrim phone, status := "pending", user := none }]⟩)

/-- DELETE /adoption/:id (donationroute.ts, lines 649-704).  404 if the
request is absent, 403 if it belongs to another user, 400 if it is no longer
`pending`, otherwise the request row is deleted.  The animal table is never
touched. -/
def cancelAdoption (db : DB) (adoptionId userId : Nat) : Nat × DB :=
  match db.adopts.find? (fun a => a.id == adoptionId) with
  | none => (404, db)
  | some adoption =>
    if adoption.userid ≠ userId then (403, db)
    else if adoption.status ≠ "pending" then (400, db)
    else (200, ⟨db.animals, db.adopts.filter (fun a => !(a.id == adoptionId))⟩)

/-- PUT /admin/adoptions/:id (donationroute.ts, lines 1307-1431).  The admin
decision endpoint: 400 for an invalid status, 404 if the request is absent;
otherwise one Prisma transaction (here a single transition) updates the
request status and the `user` column with the admin comment, then, when
approving, marks the animal `adopted` and bulk-rejects all other `pending`
requests for it, and, when rejecting a request of an animal whose status is
`pending`, sets the animal back to `available` if no other `pending` request
remains.  A missing animal row makes the Prisma update throw and the whole
transaction roll back, hence the 500 branches that return the unchanged
state.  The source performs no check on the current status of the request
being decided. -/
def decideAdoption (db : DB) (adoptionId : Nat) (status : String)
    (adminComment : Option String) : Nat × DB :=
  if (["pending", "approved", "rejected"].contains status) = false then (400, db)
  else
    match db.adopts.find? (fun a => a.id == adoptionId) with
    | none => (404, db)
    | some existingAdoption =>
      let adopts1 := db.adopts.map fun a =>
        if a.id == adoptionId then { a with status := status, user := orNull adminComment }
        else a
      if status == "approved" then
        match db.animals.find? (fun an => an.id == existingAdoption.animalid) with
        | none => (500, db)
        | some _ =>
          let animals1 := db.animals.map fun an =>
            if an.id == existingAdoption.animalid then { an with status := "adopted" } else an
          let adopts2 := adopts1.map fun a =>
            if a.animalid == existingAdoption.animalid && !(a.id == adoptionId) &&
                a.status == "pending"
            then { a with status := "rejected", user := some rejectedNote }
            else a
          (200, ⟨animals1, adopts2⟩)
      else if status == "rejected" then
        match db.animals.find? (fun an => an.id == existingAdoption.animalid) with
        | none => (500, db)
        | some animal =>
          if animal.status == "pending" then
            let otherPendingAdoptions := adopts1.countP fun a =>
              a.animalid == existingAdoption.animalid && !(a.id == adoptionId) &&
              a.status == "pending"
            if otherPendingAdoptions == 0 then
              (200, ⟨db.animals.map fun an =>
                  if an.id == existingAdoption.animalid then { an with status := "available" }
                  else an,
                adopts1⟩)
            else (200, ⟨db.animals, adopts1⟩)
          else (200, ⟨db.animals, adopts1⟩)
      else (200, ⟨db.animals, adopts1⟩)

/-- DELETE /admin/adoptions/:id (donationroute.ts, lines 1519-1561).  After
the existence check the request row is deleted; no other table is read or
written. -/
def adminDeleteAdoption (db : DB) (adoptionId : Nat) : Nat × DB :=
  match db.adopts.find? (fun a => a.id == adoptionId) with
  | none => (404, db)
  | some _ => (200, ⟨db.animals, db.adopts.filter (fun a => !(a.id == adoptionId))⟩)

/-- DELETE /admin/donations/:id (donationroute.ts, lines 405-455).  404 if
the donation is absent, 400 if its status is `completed`, otherwise the row
is deleted. -/
def deleteDonation (donations : List Donation) (donationId : Nat) :
    Nat × List Donation :=
  match donations.find? (fun d => d.id == donationId) with
  | none => (404, donations)
  | some donation =>
    if donation.status == "completed" then (400, donations)
    else (200, donations.filter (fun d => !(d.id == donationId)))

/-- AnimalService.createAnimal (animalservice.ts, lines 8-40) as reached via
POST /animals: empty required fields or a non-positive age make the service
throw, which the route reports as 500; otherwise a new animal is inserted
with status `available` (Prisma assigns the id; here it is `newId`). -/
def createAnimal (db : DB) (newId : Nat) (type name city : String) (age : Int)
    (breed : String) (description : Option String) : Nat × DB :=
  if type == "" || name == "" || city == "" || breed == "" then (500, db)
  else if age ≤ 0 then (500, db)
  else
    (201, ⟨db.animals ++
      [{ id := newId, type := strTrim type, name := strTrim name, city := strTrim city,
         age := age, breed := strTrim breed,
         description := orNull (description.map strTrim), status := "available" }],
      db.adopts⟩)

/-- Partial update payload of AnimalService.updateAnimal. -/
structure UpdateAnimalData where
  type : Option String
  name : Option String
  city : Option String
  age : Option Int
  breed : Option String
  description : Option String
  status : Option String
  deriving DecidableEq

/-- Field-wise application of an update payload to an animal row, mirroring
the `cleanUpdateData` construction of AnimalService.updateAnimal. -/
def applyAnimalUpdate (u : UpdateAnimalData) (an : Animal) : Animal :=
  { an with
    type := match u.type with | some t => strTrim t | none => an.type
    name := match u.name with | some n => strTrim n | none => an.name
    city := match u.city with | some c => strTrim c | none => an.city
    age := match u.age with | some a => a | none => an.age
    breed := match u.breed with | some b => strTrim b | none => an.breed
    description := match u.description with
      | some d => orNull (some (strTrim d))
      | none => an.description
    status := match u.status with | some s => s | none => an.status }

/-- AnimalService.updateAnimal (animalservice.ts, lines 167-225) as reached
via PUT /animals/:id: 404 if the animal is absent; a non-positive supplied
age throws (500 at the route); a supplied status outside
`available`/`adopted`/`pending` is rejected (400 at the route); otherwise
the supplied fields are written. -/
def updateAnimal (db : DB) (animalId : Nat) (u : UpdateAnimalData) : Nat × DB :=
  match db.animals.find? (fun an => an.id == animalId) with
  | none => (404, db)
  | some _ =>
    if (match u.age with | some a => decide (a ≤ 0) | none => false) then (500, db)
    else if (match u.status with
        | some s => !(["available", "adopted", "pending"].contains s)
        | none => false) then (400, db)
    else
      (200, ⟨db.animals.map (fun an => if an.id == animalId then applyAnimalUpdate u an else an),
        db.adopts⟩)

/-- AnimalService.deleteAnimal (animalservice.ts, lines 228-253) as reached
via DELETE /animals/:id: 404 if the animal is absent, 409 if any adoption
request referencing it is still `pending`, otherwise the animal row is
deleted (the adoption rows are not touched by the service). -/
def deleteAnimal (db : DB) (animalId : Nat) : Nat × DB :=
  match db.animals.find? (fun an => an.id == animalId) with
  | none => (404, db)
  | some _ =>
    let pendingAdoptions :=
      (db.adopts.filter (fun a => a.animalid == animalId)).filter
        (fun a => a.status == "pending")
    if pendingAdoptions.length > 0 then (409, db)
    else (200, ⟨db.animals.filter (fun an => !(an.id == animalId)), db.adopts⟩)

/-- AnimalService.markAsAdopted (animalservice.ts, lines 256-276) as reached
via PATCH /animals/:id/adopt: 404 if absent, 400 if already adopted,
otherwise the status is set to `adopted`. -/
def markAsAdopted (db : DB) (animalId : Nat) : Nat × DB :=
  match db.animals.find? (fun an => an.id == animalId) with
  | none => (404, db)
  | some animal =>
    if animal.status == "adopted" then (400, db)
    else
      (200, ⟨db.animals.map (fun an =>
          if an.id == animalId then { an with status := "adopted" } else an),
        db.adopts⟩)

/-- AnimalService.markAsAvailable (animalservice.ts, lines 279-295) as
reached via PATCH /animals/:id/available: 404 if absent, otherwise the
status is set to `available`. -/
def markAsAvailable (db : DB) (animalId : Nat) : Nat × DB :=
  match db.animals.find? (fun an => an.id == animalId) with
  | none => (404, db)
  | some _ =>
    (200, ⟨db.animals.map (fun an =>
        if an.id == animalId then { an with status := "available" } else an),
      db.adopts⟩)

/-- One step of the system: any of the state-changing operations named by the
reachability claim, applied with arbitrary arguments (a failed call returns
the unchanged state, so failures are harmless reflexive steps). -/
inductive Step : DB → DB → Prop
  | ofCreateAdoption (db : DB) (newId userId animalId : Nat) (fn ln ph : String) :
      Step db (createAdoption db newId userId animalId fn ln ph).2
  | ofCancelAdoption (db : DB) (adoptionId userId : Nat) :
      Step db (cancelAdoption db adoptionId userId).2
  | ofDecideAdoption (db : DB) (adoptionId : Nat) (status : String) (c : Option String) :
      Step db (decideAdoption db adoptionId status c).2
  | ofAdminDeleteAdoption (db : DB) (adoptionId : Nat) :
      Step db (adminDeleteAdoption db adoptionId).2
  | ofCreateAnimal (db : DB) (newId : Nat) (type name city : String) (age : Int)
      (breed : String) (description : Option String) :
      Step db (createAnimal db newId type name city age breed description).2
  | ofUpdateAnimal (db : DB) (animalId : Nat) (u : UpdateAnimalData) :
      Step db (updateAnimal db animalId u).2
  | ofDeleteAnimal (db : DB) (animalId : Nat) :
      Step db (deleteAnimal db animalId).2
  | ofMarkAsAdopted (db : DB) (animalId : Nat) :
      Step db (markAsAdopted db animalId).2
  | ofMarkAsAvailable (db : DB) (animalId : Nat) :
      Step db (markAsAvailable db animalId).2

/-- The empty datastore the program starts from. -/
def initDB : DB := ⟨[], []⟩

/-- A state is reachable when some finite sequence of operations produces it
from the empty datastore. -/
def Reachable (db : DB) : Prop := Relation.ReflTransGen Step initDB db

/-- Number of `approved` adoption requests referencing a given animal. -/
def approvedCountFor (db : DB) (animalId : Nat) : Nat :=
  db.adopts.countP fun b => b.animalid == animalId && b.status == "approved"

/-- The claimed invariant: an animal is `adopted` exactly when it has exactly
one `approved` request. -/
def AdoptedIffOneApproved (db : DB) : Prop :=
  ∀ an ∈ db.animals, (an.status = "adopted" ↔ approvedCountFor db an.id = 1)

/-- Static admin allow list of AuthService. -/
def ADMIN_EMAILS : List String := ["admin@adaopte.com", "manager@adaopte.com"]

/-- AuthService.determineUserRole: admin exactly when the lowercased email is
in the allow list. -/
def determineUserRole (email : String) : String :=
  if ADMIN_EMAILS.contains (strToLower email) then "admin" else "user"

/-- Models the JavaScript expression `user.role || 'user'`: a null or empty
stored role falls back to `user`. -/
def orUserRole (r : Option String) : String :=
  match r with
  | none => "user"
  | some s => if s = "" then "user" else s

/-- Observable outcome of a successful AuthService.login call: the updated
user table, the role baked into the issued JWT, and the role field of the
user object in the response body. -/
structure LoginResult where
  users : List User
  tokenRole : String
  responseRole : Option String
  deriving DecidableEq

/-- AuthService.login (lines 111-158 of the auth service file): find the user
by email, compare the password (the bcrypt comparison is modelled as an
abstract equality test between the supplied secret and the stored
credential), then silently overwrite the stored role when the allow list
derived role differs.  The token and the response body are built from the
stale in-memory `user` object read before the update, so both carry the old
role; the recomputed `finalRole` variable of the source is dead code and is
not modelled. -/
def login (users : List User) (email password : String) : Option LoginResult :=
  match users.find? (fun u => u.email == email) with
  | none => none
  | some user =>
    if password ≠ user.password then none
    else
      let expectedRole := determineUserRole email
      let updatedUsers :=
        if user.role ≠ some expectedRole then
          users.map fun u => if u.id == user.id then { u with role := some expectedRole } else u
        else users
      some { users := updatedUsers, tokenRole := orUserRole user.role,
             responseRole := user.role }

instance (db : DB) : Decidable (AdoptedIffOneApproved db) := by
  unfold AdoptedIffOneApproved; infer_instance

/-- Concrete animal for the C1 witness scenario. -/
def c1X : Animal :=
  { id := 7, type := "chien", name := "Rex", city := "Paris", age := 3, breed := "berger",
    description := none, status := "pending" }

/-- Concrete request approved in the C1 witness scenario. -/
def c1A : Adopt :=
  { id := 101, userid := 1, animalid := 7, firstname := "Al", lastname := "Ba",
    phone := "0600000000", status := "pending", user := none }

/-- Concrete sibling pending request of the C1 witness scenario. -/
def c1B : Adopt :=
  { id := 102, userid := 2, animalid := 7, firstname := "Cl", lastname := "Da",
    phone := "0611111111", status := "pending", user := none }

/-- Concrete sibling rejected request of the C1 witness scenario. -/
def c1C : Adopt :=
  { id := 103, userid := 3, animalid := 7, firstname := "Em", lastname := "Fo",
    phone := "0622222222", status := "rejected", user := none }

/-- Concrete state of the C1 witness scenario: one animal, two pending
requests and one already rejected request. -/
def c1db : DB := ⟨[c1X], [c1A, c1B, c1C]⟩

/-- State reached from the empty datastore by creating an animal, creating
two pending requests for it and approving both in turn: both requests end up
`approved` while the animal is `adopted`. -/
def dbBad : DB :=
  ⟨[{ id := 1, type := "chien", name := "Rex", city := "Paris", age := 3, breed := "berger",
      description := none, status := "adopted" }],
   [{ id := 101, userid := 1, animalid := 1, firstname := "Al", lastname := "Ba",
      phone := "0600000000", status := "approved", user := none },
    { id := 102, userid := 2, animalid := 1, firstname := "Cl", lastname := "Da",
      phone := "0611111111", status := "approved", user := none }]⟩

/-- Concrete state of the C3 scenario after request 101 was approved for
animal 7 (so 102 was cascade-rejected and the animal is adopted). -/
def c3db : DB :=
  ⟨[{ id := 7, type := "chat", name := "Misha", city := "Lyon", age := 2, breed := "siamois",
      description := none, status := "adopted" }],
   [{ id := 101, userid := 1, animalid := 7, firstname := "Al", lastname := "Ba",
      phone := "0600000000", status := "approved", user := none },
    { id := 102, userid := 2, animalid := 7, firstname := "Cl", lastname := "Da",
      phone := "0611111111", status := "rejected", user := some rejectedNote }]⟩

/-- Concrete state of the C4 witness: an available animal with a rejected
earlier request by the same user, so a new request must succeed. -/
def c4db : DB :=
  ⟨[{ id := 1, type := "chien", name := "Taco", city := "Nice", age := 4, breed := "corgi",
      description := none, status := "available" }],
   [{ id := 9, userid := 5, animalid := 1, firstname := "Jean", lastname := "Dupont",
      phone := "0600000000", status := "rejected", user := none }]⟩

/-- Concrete animal of the C5 witness. -/
def c5X : Animal :=
  { id := 3, type := "lapin", name := "Pompon", city := "Lille", age := 1, breed := "nain",
    description := none, status := "pending" }

/-- Concrete last pending request of the C5 witness. -/
def c5A : Adopt :=
  { id := 201, userid := 4, animalid := 3, firstname := "Lu", lastname := "Gr",
    phone := "0633333333", status := "pending", user := none }

/-- Concrete state of the C5 witness: a single pending request for an animal
whose status is `pending`. -/
def c5db : DB := ⟨[c5X], [c5A]⟩

/-- Concrete state of the C6 witness: an animal with only decided (approved
and rejected) requests, so deletion must succeed. -/
def c6db : DB :=
  ⟨[{ id := 2, type := "chat", name := "Nori", city := "Brest", age := 5, breed := "angora",
      description := none, status := "adopted" }],
   [{ id := 301, userid := 1, animalid := 2, firstname := "Al", lastname := "Ba",
      phone := "0600000000", status := "approved", user := none },
    { id := 302, userid := 2, animalid := 2, firstname := "Cl", lastname := "Da",
      phone := "0611111111", status := "rejected", user := none }]⟩

/-- Concrete pending request of the C7 witness. -/
def c7A : Adopt :=
  { id := 401, userid := 8, animalid := 1, firstname := "Mi", lastname := "So",
    phone := "0644444444", status := "pending", user := none }

/-- Concrete state of the C7 witness. -/
def c7db : DB :=
  ⟨[{ id := 1, type := "chien", name := "Bo", city := "Metz", age := 2, breed := "beagle",
      description := none, status := "available" }],
   [c7A]⟩

/-- Concrete donation table of the C8 witness. -/
def c8donations : List Donation :=
  [{ id := 1, userid := none, amount := 50, status := "pending" },
   { id := 2, userid := some 3, amount := 20, status := "completed" }]

/-- Concrete approved request of the C9 witness. -/
def c9A : Adopt :=
  { id := 501, userid := 6, animalid := 4, firstname := "No", lastname := "Va",
    phone := "0655555555", status := "approved", user := none }

/-- Concrete state of the C9 witness: an adopted animal whose single approved
request is about to be admin-deleted. -/
def c9db : DB :=
  ⟨[{ id := 4, type := "oiseau", name := "Kiwi", city := "Pau", age := 1, breed := "canari",
      description := none, status := "adopted" }],
   [c9A]⟩

/-- Concrete stored user of the C10 witness: its email is on the admin allow
list but its stored role is `user`. -/
def c10u : User :=
  { id := 1, firstname := "Ada", lastname := "Martin", email := "admin@adaopte.com",
    password := "h1", phone := none, role := some "user" }

/-- Concrete user table of the C10 witness. -/
def c10users : List User := [c10u]

/-!  General list lemmas used by several claim proofs. -/

/-- find? commutes with a map that preserves the searched predicate. -/
theorem find?_map_pres {α : Type} (f : α → α) (p : α → Bool)
    (hp : ∀ a, p (f a) = p a) (l : List α) :
    (l.map f).find? p = (l.find? p).map f := by
  induction l with
  | nil => rfl
  | cons x xs ih =>
    rw [List.map_cons]
    cases hx : p x
    · rw [List.find?_cons_of_neg _ (by simp [hp, hx]), List.find?_cons_of_neg _ (by simp [hx]), ih]
    · rw [List.find?_cons_of_pos _ (by simp [hp, hx]), List.find?_cons_of_pos _ (by simp [hx])]
      rfl

/-- When a predicate holds of at most one position of a list, any two members
satisfying it are equal. -/
theorem unique_of_countP_le_one {α : Type} (p : α → Bool) (l : List α)
    (h : l.countP p ≤ 1) : ∀ a ∈ l, p a → ∀ b ∈ l, p b → a = b := by
  induction l with
  | nil => intro a ha; cases ha
  | cons x xs ih =>
    intro a ha hpa b hb hpb
    rw [List.countP_cons] at h
    cases hpx : p x
    · simp only [hpx, Bool.false_eq_true, if_false, Nat.add_zero] at h
      rcases List.mem_cons.mp ha with rfl | ha2
      · rw [hpa] at hpx; cases hpx
      rcases List.mem_cons.mp hb with rfl | hb2
      · rw [hpb] at hpx; cases hpx
      exact ih h a ha2 hpa b hb2 hpb
    · simp only [hpx, if_true] at h
      have hzero : xs.countP p = 0 := by omega
      have hnone := List.countP_eq_zero.mp hzero
      rcases List.mem_cons.mp ha with rfl | ha2
      · rcases List.mem_cons.mp hb with rfl | hb2
        · rfl
        · exact absurd hpb (hnone b hb2)
      · exact absurd hpa (hnone a ha2)

/-- countP only depends on the values of the predicate on the members. -/
theorem countP_congr_mem {α : Type} (p q : α → Bool) (l : List α)
    (h : ∀ a ∈ l, p a = q a) : l.countP p = l.countP q := by
  induction l with
  | nil => rfl
  | cons x xs ih =>
    rw [List.countP_cons, List.countP_cons, h x (List.mem_cons_self x xs),
      ih (fun a ha => h a (List.mem_cons_of_mem x ha))]

/-- Computed form of an approval decision when the decided request and its
animal both exist: the request row is set to `approved` with the admin
comment, the animal is set to `adopted`, and every other `pending` row of
the same animal is set to `rejected`. -/
theorem decideAdoption_approved_eq (db : DB) (A : Adopt) (X : Animal) (c : Option String)
    (hA : db.adopts.find? (fun a => a.id == A.id) = some A)
    (hX : db.animals.find? (fun an => an.id == A.animalid) = some X) :
    decideAdoption db A.id "approved" c =
      (200,
        ⟨db.animals.map (fun an =>
            if an.id == A.animalid then { an with status := "adopted" } else an),
         (db.adopts.map (fun a =>
             if a.id == A.id then { a with status := "approved", user := orNull c } else a)).map
           (fun a =>
             if a.animalid == A.animalid && !(a.id == A.id) && a.status == "pending"
             then { a with status := "rejected", user := some rejectedNote } else a)⟩) := by
  unfold decideAdoption
  rw [if_neg (by decide), hA]
  simp only [hX]
  rfl

/-- C1: approving request A for animal X (inside the one-transaction decide
endpoint, modelled as a single state transition) answers 200, sets A to
`approved` (storing the admin comment in the `user` column), sets X to
`adopted`, sets every other `pending` request of X to `rejected`, and leaves
every other already `approved` or `rejected` request of X untouched. -/
theorem C1_decide_approved_cascades (db : DB) (A : Adopt) (X : Animal) (c : Option String)
    (hA : db.adopts.find? (fun a => a.id == A.id) = some A)
    (hX : db.animals.find? (fun an => an.id == A.animalid) = some X) :
    (decideAdoption db A.id "approved" c).1 = 200 ∧
    { A with status := "approved", user := orNull c }
      ∈ (decideAdoption db A.id "approved" c).2.adopts ∧
    (decideAdoption db A.id "approved" c).2.animals.find? (fun an => an.id == A.animalid)
      = some { X with status := "adopted" } ∧
    (∀ B ∈ db.adopts, B.animalid = A.animalid → B.id ≠ A.id → B.status = "pending" →
      { B with status := "rejected", user := some rejectedNote }
        ∈ (decideAdoption db A.id "approved" c).2.adopts) ∧
    (∀ B ∈ db.adopts, B.id ≠ A.id → (B.status = "approved" ∨ B.status = "rejected") →
      B ∈ (decideAdoption db A.id "approved" c).2.adopts) := by
  rw [decideAdoption_approved_eq db A X c hA hX]
  refine ⟨rfl, ?_, ?_, ?_, ?_⟩
  · exact List.mem_map.mpr
      ⟨_, List.mem_map.mpr ⟨A, List.mem_of_find?_eq_some hA, rfl⟩, by simp⟩
  · have hXid : X.id = A.animalid := by
      have := List.find?_some hX
      simpa using this
    rw [show ((200,
        (⟨db.animals.map (fun an =>
            if an.id == A.animalid then { an with status := "adopted" } else an),
          (db.adopts.map (fun a =>
              if a.id == A.id then { a with status := "approved", user := orNull c } else a)).map
            (fun a =>
              if a.animalid == A.animalid && !(a.id == A.id) && a.status == "pending"
              then { a with status := "rejected", user := some rejectedNote } else a)⟩ : DB)) :
        Nat × DB).2.animals = db.animals.map (fun an =>
            if an.id == A.animalid then { an with status := "adopted" } else an) from rfl]
    rw [find?_map_pres (fun an => if an.id == A.animalid then { an with status := "adopted" } else an)
      (fun an => an.id == A.animalid)
      (fun an => by by_cases h : (an.id == A.animalid) = true <;> simp [h]) db.animals, hX]
    simp [hXid]
  · intro B hB hanim hne hpend
    exact List.mem_map.mpr
      ⟨B, List.mem_map.mpr ⟨B, hB, by simp [hne]⟩, by simp [hanim, hne, hpend]⟩
  · intro B hB hne hdec
    exact List.mem_map.mpr
      ⟨B, List.mem_map.mpr ⟨B, hB, by simp [hne]⟩, by rcases hdec with h | h <;> simp [h]⟩

/-- C1 witness: in the concrete three-request state, approving request 101
answers 200, marks animal 7 adopted, cascade-rejects the pending sibling 102
and leaves the rejected sibling 103 untouched. -/
theorem C1_witness :
    (decideAdoption c1db 101 "approved" none).1 = 200 ∧
    (decideAdoption c1db 101 "approved" none).2.animals.find? (fun an => an.id == 7)
      = some { c1X with status := "adopted" } ∧
    { c1B with status := "rejected", user := some rejectedNote }
      ∈ (decideAdoption c1db 101 "approved" none).2.adopts ∧
    c1C ∈ (decideAdoption c1db 101 "approved" none).2.adopts := by
  have h := C1_decide_approved_cascades c1db c1A c1X none (by decide) (by decide)
  exact ⟨h.1, h.2.2.1, h.2.2.2.1 c1B (by decide) (by decide) (by decide) (by decide),
    h.2.2.2.2 c1C (by decide) (by decide) (by decide)⟩

/-- C2 counterexample: the adopted-iff-exactly-one-approved equivalence is
not an invariant of the reachable states.  From the empty datastore: create
an animal, let two users file pending requests, approve the first (animal
adopted, second request cascade-rejected), then approve the second request
as well — the decide endpoint never checks the current status, so the state
ends with the animal `adopted` and two `approved` requests. -/
theorem C2_counterexample : Reachable dbBad ∧ ¬ AdoptedIffOneApproved dbBad := by
  constructor
  · have g1 : Relation.ReflTransGen Step initDB
        (createAnimal initDB 1 "chien" "Rex" "Paris" 3 "berger" none).2 :=
      Relation.ReflTransGen.single
        (Step.ofCreateAnimal initDB 1 "chien" "Rex" "Paris" 3 "berger" none)
    have g2 := g1.tail (Step.ofCreateAdoption _ 101 1 1 "Al" "Ba" "0600000000")
    have g3 := g2.tail (Step.ofCreateAdoption _ 102 2 1 "Cl" "Da" "0611111111")
    have g4 := g3.tail (Step.ofDecideAdoption _ 101 "approved" none)
    have g5 := g4.tail (Step.ofDecideAdoption _ 102 "approved" none)
    have he : (decideAdoption (decideAdoption (createAdoption (createAdoption
        (createAnimal initDB 1 "chien" "Rex" "Paris" 3 "berger" none).2
        101 1 1 "Al" "Ba" "0600000000").2 102 2 1 "Cl" "Da" "0611111111").2
        101 "approved" none).2 102 "approved" none).2 = dbBad := by decide
    exact he ▸ g5
  · decide

/-- C2 (amended): the equivalence holds as a single-step guarantee of the
approval path rather than as a reachable-state invariant: approving a
pending request A (unique bearer of its id) for an animal that has no
approved request yet makes the animal `adopted` with exactly one `approved`
request referencing it. -/
theorem C2_amended_single_approval (db : DB) (A : Adopt) (X : Animal) (c : Option String)
    (hA : db.adopts.find? (fun a => a.id == A.id) = some A)
    (huniq : db.adopts.countP (fun b => b.id == A.id) = 1)
    (hX : db.animals.find? (fun an => an.id == A.animalid) = some X)
    (hpend : A.status = "pending")
    (hnoappr : ∀ b ∈ db.adopts, b.animalid = A.animalid → b.status ≠ "approved") :
    (decideAdoption db A.id "approved" c).1 = 200 ∧
    (decideAdoption db A.id "approved" c).2.animals.find? (fun an => an.id == A.animalid)
      = some { X with status := "adopted" } ∧
    approvedCountFor (decideAdoption db A.id "approved" c).2 A.animalid = 1 := by
  have huni := unique_of_countP_le_one (fun b => b.id == A.id) db.adopts (le_of_eq huniq)
  have hAmem := List.mem_of_find?_eq_some hA
  rw [decideAdoption_approved_eq db A X c hA hX]
  refine ⟨rfl, ?_, ?_⟩
  · have hXid : X.id = A.animalid := by
      have := List.find?_some hX
      simpa using this
    rw [show ((200,
        (⟨db.animals.map (fun an =>
            if an.id == A.animalid then { an with status := "adopted" } else an),
          (db.adopts.map (fun a =>
              if a.id == A.id then { a with status := "approved", user := orNull c } else a)).map
            (fun a =>
              if a.animalid == A.animalid && !(a.id == A.id) && a.status == "pending"
              then { a with status := "rejected", user := some rejectedNote } else a)⟩ : DB)) :
        Nat × DB).2.animals = db.animals.map (fun an =>
            if an.id == A.animalid then { an with status := "adopted" } else an) from rfl]
    rw [find?_map_pres (fun an => if an.id == A.animalid then { an with status := "adopted" } else an)
      (fun an => an.id == A.animalid)
      (fun an => by by_cases h : (an.id == A.animalid) = true <;> simp [h]) db.animals, hX]
    simp [hXid]
  · have hpt : ∀ b ∈ db.adopts,
        ((fun x => x.animalid == A.animalid && x.status == "approved") ∘
          ((fun a => if a.animalid == A.animalid && !(a.id == A.id) && a.status == "pending"
              then { a with status := "rejected", user := some rejectedNote } else a) ∘
            (fun a => if a.id == A.id then { a with status := "approved", user := orNull c }
              else a))) b
        = (fun b => b.id == A.id) b := by
      intro b hb
      simp only [Function.comp_apply]
      by_cases hid : b.id = A.id
      · have hbA : b = A := huni b hb (by simp [hid]) A hAmem (by simp)
        subst hbA
        simp
      · by_cases hc : b.animalid = A.animalid
        · by_cases hp : b.status = "pending"
          · simp [hid, hc, hp]
          · simp [hid, hc, hp, hnoappr b hb hc]
        · have h1 : (b.animalid == A.animalid) = false := beq_eq_false_iff_ne.mpr hc
          have h2 : (b.id == A.id) = false := beq_eq_false_iff_ne.mpr hid
          simp [h1, h2]
    unfold approvedCountFor
    rw [show ((200,
        (⟨db.animals.map (fun an =>
            if an.id == A.animalid then { an with status := "adopted" } else an),
          (db.adopts.map (fun a =>
              if a.id == A.id then { a with status := "approved", user := orNull c } else a)).map
            (fun a =>
              if a.animalid == A.animalid && !(a.id == A.id) && a.status == "pending"
              then { a with status := "rejected", user := some rejectedNote } else a)⟩ : DB)) :
        Nat × DB).2.adopts = (db.adopts.map (fun a =>
              if a.id == A.id then { a with status := "approved", user := orNull c } else a)).map
            (fun a =>
              if a.animalid == A.animalid && !(a.id == A.id) && a.status == "pending"
              then { a with status := "rejected", user := some rejectedNote } else a) from rfl]
    rw [List.map_map, List.countP_map]
    rw [countP_congr_mem _ (fun b => b.id == A.id) db.adopts hpt]
    exact huniq

/-- C2 witness: in the concrete three-request state (no approved request
yet), approving request 101 answers 200, marks animal 7 adopted, and leaves
exactly one approved request for animal 7. -/
theorem C2_witness :
    (decideAdoption c1db 101 "approved" none).1 = 200 ∧
    (decideAdoption c1db 101 "approved" none).2.animals.find? (fun an => an.id == 7)
      = some { c1X with status := "adopted" } ∧
    approvedCountFor (decideAdoption c1db 101 "approved" none).2 7 = 1 :=
  C2_amended_single_approval c1db c1A c1X none (by decide) (by decide) (by decide) (by decide)
    (by decide)

/-- Computed form of a decision that sets the status back to `pending` (the
endpoint accepts it): only the one-row update of the request table
happens. -/
theorem decideAdoption_pending_eq (db : DB) (A : Adopt) (c : Option String)
    (hA : db.adopts.find? (fun a => a.id == A.id) = some A) :
    decideAdoption db A.id "pending" c =
      (200, ⟨db.animals, db.adopts.map (fun a =>
        if a.id == A.id then { a with status := "pending", user := orNull c } else a)⟩) := by
  unfold decideAdoption
  rw [if_neg (by decide), hA]
  rfl

/-- Computed form of a rejection decision when the request and its animal
exist: the request table always receives the one-row update; the animal is
set back to `available` exactly when its status was `pending` and no other
`pending` request for it remains after the update. -/
theorem decideAdoption_rejected_eq (db : DB) (A : Adopt) (X : Animal) (c : Option String)
    (hA : db.adopts.find? (fun a => a.id == A.id) = some A)
    (hX : db.animals.find? (fun an => an.id == A.animalid) = some X) :
    decideAdoption db A.id "rejected" c =
      (200,
        ⟨if (X.status == "pending" &&
              (((db.adopts.map (fun a =>
                  if a.id == A.id then { a with status := "rejected", user := orNull c }
                  else a)).countP (fun a =>
                    a.animalid == A.animalid && !(a.id == A.id) && a.status == "pending")) == 0))
            = true
          then db.animals.map (fun an =>
            if an.id == A.animalid then { an with status := "available" } else an)
          else db.animals,
         db.adopts.map (fun a =>
           if a.id == A.id then { a with status := "rejected", user := orNull c } else a)⟩) := by
  unfold decideAdoption
  rw [if_neg (by decide), hA]
  simp only [hX]
  rw [if_neg (show ¬ (("rejected" == "approved") = true) from by decide)]
  rw [if_pos (show ("rejected" == "rejected") = true from by decide)]
  by_cases h1 : (X.status == "pending") = true
  · by_cases h2 : (((db.adopts.map (fun a =>
        if a.id == A.id then { a with status := "rejected", user := orNull c }
        else a)).countP (fun a =>
          a.animalid == A.animalid && !(a.id == A.id) && a.status == "pending")) == 0) = true
    · rw [if_pos h1, if_pos h2, if_pos (show _ = true by rw [h1, h2]; rfl)]
    · rw [if_neg h2, if_pos h1,
        if_neg (fun hc => h2 (by rw [h1] at hc; simpa using hc))]
  · rw [if_neg h1, if_neg (fun hc => h1 ((Bool.and_eq_true _ _).mp hc).1)]

/-- C3 counterexample: in the concrete post-approval state (101 approved for
animal 7, 102 cascade-rejected), a decide call approving request 102 does
not fail with Conflict (409): it answers 200, changes the state, and leaves
two approved requests for the animal. -/
theorem C3_counterexample :
    (decideAdoption c3db 102 "approved" none).1 = 200 ∧
    (decideAdoption c3db 102 "approved" none).1 ≠ 409 ∧
    (decideAdoption c3db 102 "approved" none).2 ≠ c3db ∧
    (decideAdoption c3db 102 "approved" none).2.adopts.countP
      (fun b => b.status == "approved") = 2 := by
  decide

/-- C3 (amended): the decide endpoint enforces no terminal statuses: on any
existing request whose animal exists, and for any of the three accepted
status values, it answers 200 and overwrites the request status (and admin
comment) regardless of the current status; in particular approving a
request that was already rejected or approved succeeds. -/
theorem C3_amended_decide_overwrites (db : DB) (A : Adopt) (X : Animal)
    (status : String) (c : Option String)
    (hA : db.adopts.find? (fun a => a.id == A.id) = some A)
    (hX : db.animals.find? (fun an => an.id == A.animalid) = some X)
    (hstat : status = "pending" ∨ status = "approved" ∨ status = "rejected") :
    (decideAdoption db A.id status c).1 = 200 ∧
    { A with status := status, user := orNull c }
      ∈ (decideAdoption db A.id status c).2.adopts := by
  have hAmem := List.mem_of_find?_eq_some hA
  rcases hstat with rfl | rfl | rfl
  · rw [decideAdoption_pending_eq db A c hA]
    exact ⟨rfl, List.mem_map.mpr ⟨A, hAmem, by simp⟩⟩
  · rw [decideAdoption_approved_eq db A X c hA hX]
    exact ⟨rfl, List.mem_map.mpr
      ⟨_, List.mem_map.mpr ⟨A, hAmem, rfl⟩, by simp⟩⟩
  · rw [decideAdoption_rejected_eq db A X c hA hX]
    exact ⟨rfl, List.mem_map.mpr ⟨A, hAmem, by simp⟩⟩

/-- C3 witness: approving the already rejected request 102 of the concrete
state succeeds and stores the approved status on its row. -/
theorem C3_witness :
    (decideAdoption c3db 102 "approved" none).1 = 200 ∧
    { id := 102, userid := 2, animalid := 7, firstname := "Cl", lastname := "Da",
      phone := "0611111111", status := "approved", user := none }
      ∈ (decideAdoption c3db 102 "approved" none).2.adopts := by
  have h := C3_amended_decide_overwrites c3db
    { id := 102, userid := 2, animalid := 7, firstname := "Cl", lastname := "Da",
      phone := "0611111111", status := "rejected", user := some rejectedNote }
    { id := 7, type := "chat", name := "Misha", city := "Lyon", age := 2, breed := "siamois",
      description := none, status := "adopted" }
    "approved" none (by decide) (by decide) (by decide)
  exact h

/-- C5: rejecting the last remaining pending request of an animal that is
not `adopted` (in the status enum that means `available` or `pending`)
answers 200, leaves zero pending requests for the animal, and leaves the
animal `available`: the reversion branch fires when the animal was
`pending`, and when it already was `available` the branch is skipped and
the status is unchanged. -/
theorem C5_reject_last_pending_reverts (db : DB) (A : Adopt) (X : Animal) (c : Option String)
    (hA : db.adopts.find? (fun a => a.id == A.id) = some A)
    (hpend : A.status = "pending")
    (hlast : ∀ b ∈ db.adopts, b.animalid = A.animalid → b.id ≠ A.id → b.status ≠ "pending")
    (hX : db.animals.find? (fun an => an.id == A.animalid) = some X)
    (hXs : X.status = "available" ∨ X.status = "pending") :
    (decideAdoption db A.id "rejected" c).1 = 200 ∧
    (decideAdoption db A.id "rejected" c).2.adopts.countP
      (fun b => b.animalid == A.animalid && b.status == "pending") = 0 ∧
    (decideAdoption db A.id "rejected" c).2.animals.find? (fun an => an.id == A.animalid)
      = some { X with status := "available" } := by
  rw [decideAdoption_rejected_eq db A X c hA hX]
  have hzero0 : ((db.adopts.map (fun a =>
      if a.id == A.id then { a with status := "rejected", user := orNull c }
      else a)).countP (fun a =>
        a.animalid == A.animalid && !(a.id == A.id) && a.status == "pending")) = 0 := by
    apply List.countP_eq_zero.mpr
    intro x hx
    rcases List.mem_map.mp hx with ⟨b, hb, rfl⟩
    by_cases hid : b.id = A.id
    · simp [hid]
    · by_cases hc2 : b.animalid = A.animalid
      · simp [hid, hc2, hlast b hb hc2 hid]
      · simp [hid, beq_eq_false_iff_ne.mpr hc2]
  refine ⟨rfl, ?_, ?_⟩
  · apply List.countP_eq_zero.mpr
    intro x hx
    rcases List.mem_map.mp hx with ⟨b, hb, rfl⟩
    by_cases hid : b.id = A.id
    · simp [hid]
    · by_cases hc2 : b.animalid = A.animalid
      · simp [hid, hc2, hlast b hb hc2 hid]
      · simp [hid, beq_eq_false_iff_ne.mpr hc2]
  · rcases hXs with hst | hst
    · rw [if_neg (fun hcond => by
        have hp := ((Bool.and_eq_true _ _).mp hcond).1
        rw [hst] at hp
        exact absurd hp (by decide))]
      rw [hX]
      have hXeq : ({ X with status := "available" } : Animal) = X := by
        cases X
        simp_all
      rw [hXeq]
    · have hcond : (X.status == "pending" &&
          (((db.adopts.map (fun a =>
              if a.id == A.id then { a with status := "rejected", user := orNull c }
              else a)).countP (fun a =>
                a.animalid == A.animalid && !(a.id == A.id) && a.status == "pending")) == 0))
          = true := by
        rw [hst, hzero0]
        rfl
      rw [if_pos hcond]
      rw [find?_map_pres
        (fun an => if an.id == A.animalid then { an with status := "available" } else an)
        (fun an => an.id == A.animalid)
        (fun an => by by_cases h : (an.id == A.animalid) = true <;> simp [h]) db.animals, hX]
      have hXid : X.id = A.animalid := by simpa using List.find?_some hX
      simp [hXid]

/-- C5 witness: rejecting the only pending request 201 of animal 3 (animal
status `pending`) answers 200, leaves no pending request and makes animal 3
`available` again. -/
theorem C5_witness :
    (decideAdoption c5db 201 "rejected" none).1 = 200 ∧
    (decideAdoption c5db 201 "rejected" none).2.adopts.countP
      (fun b => b.animalid == 3 && b.status == "pending") = 0 ∧
    (decideAdoption c5db 201 "rejected" none).2.animals.find? (fun an => an.id == 3)
      = some { c5X with status := "available" } :=
  C5_reject_last_pending_reverts c5db c5A c5X none (by decide) (by decide)
    (by decide) (by decide) (by decide)

/-- C4: the adoption-creation endpoint, on inputs passing the presence
validation: 404 when the animal is absent; 400 (the code this route uses
for the spec-level Conflict on a non-available animal) when the animal is
not `available`; 409 when an active (pending or approved) request by the
same user for the same animal exists; otherwise 201, appending a `pending`
request with the trimmed applicant fields and leaving the animal table
unchanged — in particular a request whose predecessor was `rejected` is
accepted. -/
theorem C4_createAdoption_spec (db : DB) (newId userId animalId : Nat) (fn ln ph : String)
    (hv : animalId ≠ 0 ∧ fn ≠ "" ∧ ln ≠ "" ∧ ph ≠ "") :
    (db.animals.find? (fun an => an.id == animalId) = none →
      createAdoption db newId userId animalId fn ln ph = (404, db)) ∧
    (∀ an, db.animals.find? (fun an2 => an2.id == animalId) = some an →
      an.status ≠ "available" →
      createAdoption db newId userId animalId fn ln ph = (400, db)) ∧
    (∀ an, db.animals.find? (fun an2 => an2.id == animalId) = some an →
      an.status = "available" →
      (∃ b ∈ db.adopts, b.userid = userId ∧ b.animalid = animalId ∧
        (b.status = "pending" ∨ b.status = "approved")) →
      createAdoption db newId userId animalId fn ln ph = (409, db)) ∧
    (∀ an, db.animals.find? (fun an2 => an2.id == animalId) = some an →
      an.status = "available" →
      (∀ b ∈ db.adopts, ¬ (b.userid = userId ∧ b.animalid = animalId ∧
        (b.status = "pending" ∨ b.status = "approved"))) →
      createAdoption db newId userId animalId fn ln ph =
        (201, ⟨db.animals, db.adopts ++
          [{ id := newId, userid := userId, animalid := animalId,
             firstname := strTrim fn, lastname := strTrim ln, phone := strTrim ph,
             status := "pending", user := none }]⟩)) := by
  obtain ⟨h0, h1, h2, h3⟩ := hv
  have hval : (animalId == 0 || fn == "" || ln == "" || ph == "") = false := by
    simp [h0, h1, h2, h3]
  refine ⟨?_, ?_, ?_, ?_⟩
  · intro hnone
    simp only [createAdoption, hval, Bool.false_eq_true, if_false, hnone]
  · intro an hsome hne
    simp only [createAdoption, hval, Bool.false_eq_true, if_false, hsome]
    rw [if_pos hne]
  · intro an hsome hst hex
    obtain ⟨b, hb, hu, ha2, hs⟩ := hex
    have hisSome : (db.adopts.find? (fun a =>
        a.userid == userId && a.animalid == animalId &&
        (a.status == "pending" || a.status == "approved"))).isSome := by
      apply List.find?_isSome.mpr
      exact ⟨b, hb, by rcases hs with h | h <;> simp [hu, ha2, h]⟩
    obtain ⟨e, he⟩ := Option.isSome_iff_exists.mp hisSome
    simp only [createAdoption, hval, Bool.false_eq_true, if_false, hsome,
      if_neg (show ¬ an.status ≠ "available" from fun hne => hne hst), he]
  · intro an hsome hst hnoactive
    have hnone2 : db.adopts.find? (fun a =>
        a.userid == userId && a.animalid == animalId &&
        (a.status == "pending" || a.status == "approved")) = none := by
      apply List.find?_eq_none.mpr
      intro b hb hbool
      obtain ⟨⟨hbu, hba⟩, hbs⟩ :
          (b.userid = userId ∧ b.animalid = animalId) ∧
            (b.status = "pending" ∨ b.status = "approved") := by simpa using hbool
      exact hnoactive b hb ⟨hbu, hba, hbs⟩
    simp only [createAdoption, hval, Bool.false_eq_true, if_false, hsome,
      if_neg (show ¬ an.status ≠ "available" from fun hne => hne hst), hnone2]

/-- C4 witness: in the concrete state with an available animal and a
rejected earlier request by user 5 for it, creating a new request by user 5
succeeds with 201, appends a pending row and leaves the animal table
unchanged. -/
theorem C4_witness :
    createAdoption c4db 10 5 1 "Jean" "Dupont" "0600000000" =
      (201, ⟨c4db.animals, c4db.adopts ++
        [{ id := 10, userid := 5, animalid := 1,
           firstname := strTrim "Jean", lastname := strTrim "Dupont",
           phone := strTrim "0600000000", status := "pending", user := none }]⟩) := by
  have h := C4_createAdoption_spec c4db 10 5 1 "Jean" "Dupont" "0600000000"
    (by refine ⟨?_, ?_, ?_, ?_⟩ <;> decide)
  exact h.2.2.2
    { id := 1, type := "chien", name := "Taco", city := "Nice", age := 4, breed := "corgi",
      description := none, status := "available" }
    (by decide) (by decide) (by decide)

/-- C6: deleting an animal answers 404 when it is absent; answers 409 and
changes nothing when some request referencing it is `pending`; and succeeds
(removing only the animal row, requests untouched) when no referencing
request is `pending`, even if approved or rejected ones exist. -/
theorem C6_deleteAnimal_guard (db : DB) (animalId : Nat) :
    (db.animals.find? (fun an => an.id == animalId) = none →
      deleteAnimal db animalId = (404, db)) ∧
    ((db.animals.find? (fun an => an.id == animalId)).isSome →
      (∃ b ∈ db.adopts, b.animalid = animalId ∧ b.status = "pending") →
      deleteAnimal db animalId = (409, db)) ∧
    ((db.animals.find? (fun an => an.id == animalId)).isSome →
      (∀ b ∈ db.adopts, b.animalid = animalId → b.status ≠ "pending") →
      deleteAnimal db animalId =
        (200, ⟨db.animals.filter (fun an => !(an.id == animalId)), db.adopts⟩)) := by
  refine ⟨?_, ?_, ?_⟩
  · intro hnone
    simp only [deleteAnimal, hnone]
  · intro hsome hex
    obtain ⟨an, he⟩ := Option.isSome_iff_exists.mp hsome
    obtain ⟨b, hb, hb1, hb2⟩ := hex
    have hmem : b ∈ (db.adopts.filter (fun a => a.animalid == animalId)).filter
        (fun a => a.status == "pending") :=
      List.mem_filter.mpr ⟨List.mem_filter.mpr ⟨hb, by simp [hb1]⟩, by simp [hb2]⟩
    have hlen := List.length_pos_of_mem hmem
    simp only [deleteAnimal, he]
    rw [if_pos hlen]
  · intro hsome hnopending
    obtain ⟨an, he⟩ := Option.isSome_iff_exists.mp hsome
    have hnil : (db.adopts.filter (fun a => a.animalid == animalId)).filter
        (fun a => a.status == "pending") = [] := by
      apply List.filter_eq_nil_iff.mpr
      intro b hbmem
      obtain ⟨hb, hanim⟩ := List.mem_filter.mp hbmem
      have : b.status ≠ "pending" := hnopending b hb (by simpa using hanim)
      simp [this]
    simp only [deleteAnimal, he, hnil]
    rw [if_neg (by simp)]

/-- C6 witness: deleting animal 2, which has one approved and one rejected
request but no pending one, succeeds and removes only the animal row. -/
theorem C6_witness :
    deleteAnimal c6db 2 =
      (200, ⟨c6db.animals.filter (fun an => !(an.id == 2)), c6db.adopts⟩) :=
  (C6_deleteAnimal_guard c6db 2).2.2 (by decide) (by decide)

/-- C7: cancelling an existing adoption request never touches the animal
table, answers 403 when the requester is not the owner, 400 (the code this
route uses for the spec-level Conflict) when the request is no longer
pending, and otherwise deletes the request row. -/
theorem C7_cancelAdoption_spec (db : DB) (adoptionId requesterId : Nat) (adoption : Adopt)
    (hfind : db.adopts.find? (fun a => a.id == adoptionId) = some adoption) :
    (cancelAdoption db adoptionId requesterId).2.animals = db.animals ∧
    (adoption.userid ≠ requesterId →
      cancelAdoption db adoptionId requesterId = (403, db)) ∧
    (adoption.userid = requesterId → adoption.status ≠ "pending" →
      cancelAdoption db adoptionId requesterId = (400, db)) ∧
    (adoption.userid = requesterId → adoption.status = "pending" →
      cancelAdoption db adoptionId requesterId =
        (200, ⟨db.animals, db.adopts.filter (fun a => !(a.id == adoptionId))⟩)) := by
  refine ⟨?_, ?_, ?_, ?_⟩
  · simp only [cancelAdoption, hfind]
    by_cases hu : adoption.userid ≠ requesterId
    · rw [if_pos hu]
    · rw [if_neg hu]
      by_cases hs : adoption.status ≠ "pending"
      · rw [if_pos hs]
      · rw [if_neg hs]
  · intro hu
    simp only [cancelAdoption, hfind]
    rw [if_pos hu]
  · intro hu hs
    simp only [cancelAdoption, hfind]
    rw [if_neg (fun hne => hne hu), if_pos hs]
  · intro hu hs
    simp only [cancelAdoption, hfind]
    rw [if_neg (fun hne => hne hu), if_neg (fun hne => hne hs)]

/-- C7 witness: the owner (user 8) cancels its pending request 401: the
request is deleted and the animal table is unchanged. -/
theorem C7_witness :
    cancelAdoption c7db 401 8 =
      (200, ⟨c7db.animals, c7db.adopts.filter (fun a => !(a.id == 401))⟩) :=
  (C7_cancelAdoption_spec c7db 401 8 c7A (by decide)).2.2.2 (by decide) (by decide)

/-- C8: deleting a donation answers 404 when it is absent, refuses with 400
(the code this route uses for the spec-level Conflict) and keeps the table
unchanged when its status is `completed`, and deletes the row for any other
status. -/
theorem C8_deleteDonation_spec (donations : List Donation) (donationId : Nat) :
    (donations.find? (fun d => d.id == donationId) = none →
      deleteDonation donations donationId = (404, donations)) ∧
    (∀ d, donations.find? (fun d2 => d2.id == donationId) = some d →
      d.status = "completed" →
      deleteDonation donations donationId = (400, donations)) ∧
    (∀ d, donations.find? (fun d2 => d2.id == donationId) = some d →
      d.status ≠ "completed" →
      deleteDonation donations donationId =
        (200, donations.filter (fun d2 => !(d2.id == donationId)))) := by
  refine ⟨?_, ?_, ?_⟩
  · intro hnone
    simp only [deleteDonation, hnone]
  · intro d hsome hst
    simp only [deleteDonation, hsome]
    rw [if_pos (by simp [hst])]
  · intro d hsome hst
    simp only [deleteDonation, hsome]
    rw [if_neg (by simp [hst])]

/-- C8 witness: donation 2 is `completed`, so deleting it is refused with
the table unchanged, while pending donation 1 is deleted. -/
theorem C8_witness :
    deleteDonation c8donations 2 = (400, c8donations) ∧
    deleteDonation c8donations 1 =
      (200, c8donations.filter (fun d2 => !(d2.id == 1))) := by
  have h2 := (C8_deleteDonation_spec c8donations 2).2.1
    { id := 2, userid := some 3, amount := 20, status := "completed" } (by decide) (by decide)
  have h1 := (C8_deleteDonation_spec c8donations 1).2.2
    { id := 1, userid := none, amount := 50, status := "pending" } (by decide) (by decide)
  exact ⟨h2, h1⟩

/-- C9: the admin delete-adoption endpoint, on an existing request of any
status, answers 200 and removes only that request row: the animal table is
returned unchanged and every other request row survives. -/
theorem C9_adminDeleteAdoption_frame (db : DB) (adoptionId : Nat) (A : Adopt)
    (hfind : db.adopts.find? (fun a => a.id == adoptionId) = some A) :
    (adminDeleteAdoption db adoptionId).1 = 200 ∧
    (adminDeleteAdoption db adoptionId).2.animals = db.animals ∧
    (adminDeleteAdoption db adoptionId).2.adopts
      = db.adopts.filter (fun a => !(a.id == adoptionId)) ∧
    (∀ B ∈ db.adopts, B.id ≠ adoptionId →
      B ∈ (adminDeleteAdoption db adoptionId).2.adopts) := by
  refine ⟨?_, ?_, ?_, ?_⟩
  · simp only [adminDeleteAdoption, hfind]
  · simp only [adminDeleteAdoption, hfind]
  · simp only [adminDeleteAdoption, hfind]
  · intro B hB hne
    simp only [adminDeleteAdoption, hfind]
    exact List.mem_filter.mpr ⟨hB, by simp [hne]⟩

/-- C9 witness: deleting the approved request 501 of adopted animal 4
answers 200 and leaves the animal row untouched (still `adopted`, now with
no approved request). -/
theorem C9_witness :
    (adminDeleteAdoption c9db 501).1 = 200 ∧
    (adminDeleteAdoption c9db 501).2.animals = c9db.animals ∧
    (adminDeleteAdoption c9db 501).2.adopts
      = c9db.adopts.filter (fun a => !(a.id == 501)) := by
  have h := C9_adminDeleteAdoption_frame c9db 501 c9A (by decide)
  exact ⟨h.1, h.2.1, h.2.2.1⟩

/-- C10: on a successful login of a user whose stored role (a nonempty
string, per the role enum) differs from the allow-list derived role, the
stored role is overwritten with the derived one, while both the role baked
into the issued JWT and the role field of the returned user object are the
previously stored role. -/
theorem C10_login_stale_role (users : List User) (email password r : String) (u : User)
    (hfind : users.find? (fun x => x.email == email) = some u)
    (hpw : password = u.password)
    (hrole : u.role = some r) (hr : r ≠ "")
    (hdiff : determineUserRole email ≠ r) :
    login users email password =
      some { users := users.map (fun x =>
               if x.id == u.id then { x with role := some (determineUserRole email) } else x),
             tokenRole := r, responseRole := some r } ∧
    { u with role := some (determineUserRole email) }
      ∈ (users.map (fun x =>
          if x.id == u.id then { x with role := some (determineUserRole email) } else x)) := by
  constructor
  · have hcond : u.role ≠ some (determineUserRole email) := by
      rw [hrole]
      intro hcontra
      exact hdiff (Option.some.inj hcontra).symm
    simp only [login, hfind]
    rw [if_neg (fun h => h hpw), if_pos hcond, hrole]
    simp [orUserRole, hr]
  · exact List.mem_map.mpr ⟨u, List.mem_of_find?_eq_some hfind, by simp⟩

/-- C10 witness: user 1 has stored role `user` but its email is on the admin
allow list; a successful login overwrites the stored role with `admin`
while the issued JWT and the response still carry `user`. -/
theorem C10_witness :
    login c10users "admin@adaopte.com" "h1" =
      some { users := c10users.map (fun x =>
               if x.id == 1 then { x with role := some (determineUserRole "admin@adaopte.com") }
               else x),
             tokenRole := "user", responseRole := some "user" } ∧
    { c10u with role := some (determineUserRole "admin@adaopte.com") }
      ∈ (c10users.map (fun x =>
          if x.id == 1 then { x with role := some (determineUserRole "admin@adaopte.com") }
          else x)) :=
  C10_login_stale_role c10users "admin@adaopte.com" "h1" "user" c10u
    (by decide) (by decide) (by decide) (by decide) (by decide)

end Adaopte
